import Mathlib

/-!
Verification development for the lernd fact parser and problem assembler
(src/lernd/parser.py and src/lernd/experiments.py).

The parser is a shallow embedding of the pyparsing grammar built in
`create_parser`:

  predicate = pp.Word(pp.alphas)
  number    = pp.Word(pp.nums + '.')
  variable  = pp.Word(pp.alphas)
  argument  = number | variable
  arguments = Suppress('(') + delimited_list(argument, ',') + Suppress(')')
  fact      = predicate + arguments
  sentence  = fact + Suppress('.')
  prolog_parser = OneOrMore(Group(sentence))

pyparsing semantics modelled here: each leaf expression first skips the
default whitespace characters (space, tab, newline), `Word` is maximal-munch
over its character class and fails on the empty match, `|` is ordered choice
(number first), `delimited_list`/`OneOrMore` are greedy and stop (without
consuming) at the first failed iteration, and `parse_file(..., parse_all=True)`
requires that only whitespace remains after the last sentence.
-/

/-- A parsed fact: result name `id` (the pyparsing results name for the
relationship word) and the ordered argument tokens `args`. -/
structure Predicate where
  id : String
  args : List String
deriving DecidableEq, Repr

/-- pyparsing default whitespace characters (ParserElement.DEFAULT_WHITE_CHARS). -/
def isWsChar (c : Char) : Bool :=
  c == ' ' || c == '\t' || c == '\n'

/-- Character class of pp.alphas (ASCII letters). -/
def isAlphaChar (c : Char) : Bool :=
  ('a' ≤ c && c ≤ 'z') || ('A' ≤ c && c ≤ 'Z')

/-- Character class of pp.nums + '.' (digits and the decimal point). -/
def isNumDotChar (c : Char) : Bool :=
  c.isDigit || c == '.'

/-- Skip leading default whitespace, as pyparsing does before each expression. -/
def skipWs : List Char → List Char
  | [] => []
  | c :: cs => if isWsChar c then skipWs cs else c :: cs

/-- pp.Word over a character class: skip whitespace, then take the maximal
nonempty run of class characters; fail on an empty run. -/
def parseWord (p : Char → Bool) (cs : List Char) : Option (String × List Char) :=
  let cs' := skipWs cs
  if (cs'.takeWhile p).isEmpty then none
  else some ((cs'.takeWhile p).asString, cs'.dropWhile p)

/-- A suppressed literal character token (Suppress of a one-character Literal). -/
def parseLit (c : Char) (cs : List Char) : Option (List Char) :=
  match skipWs cs with
  | [] => none
  | c' :: rest => if c' = c then some rest else none

/-- argument = number | variable (ordered choice, number tried first). -/
def parseArgument (cs : List Char) : Option (String × List Char) :=
  match parseWord isNumDotChar cs with
  | some r => some r
  | none => parseWord isAlphaChar cs

/-- The ZeroOrMore(Suppress(',') + argument) tail of delimited_list: greedy,
and a failed iteration consumes nothing. The fuel bounds the iteration count;
an iteration consumes at least two characters, so any fuel at least the
remaining length is enough. -/
def parseMoreArgs : Nat → List Char → List String × List Char
  | 0, cs => ([], cs)
  | fuel + 1, cs =>
    match parseLit ',' cs with
    | none => ([], cs)
    | some cs1 =>
      match parseArgument cs1 with
      | none => ([], cs)
      | some (a, cs2) =>
        match parseMoreArgs fuel cs2 with
        | (rest_args, rest) => (a :: rest_args, rest)

/-- sentence = Word(alphas) '(' delimited_list(argument, ',') ')' '.' with the
bracket tokens and the period suppressed. -/
def parseSentence (fuel : Nat) (cs : List Char) : Option (Predicate × List Char) :=
  match parseWord isAlphaChar cs with
  | none => none
  | some (name, cs1) =>
    match parseLit '(' cs1 with
    | none => none
    | some cs2 =>
      match parseArgument cs2 with
      | none => none
      | some (a0, cs3) =>
        match parseMoreArgs fuel cs3 with
        | (more, cs4) =>
          match parseLit ')' cs4 with
          | none => none
          | some cs5 =>
            match parseLit '.' cs5 with
            | none => none
            | some cs6 => some (Predicate.mk name (a0 :: more), cs6)

/-- The iteration of OneOrMore(Group(sentence)) after the first sentence:
greedy, stopping (without consuming) when the next sentence fails. -/
def parseMoreSentences : Nat → List Char → List Predicate × List Char
  | 0, cs => ([], cs)
  | fuel + 1, cs =>
    match parseSentence (cs.length + 1) cs with
    | none => ([], cs)
    | some (p, rest) =>
      match parseMoreSentences fuel rest with
      | (ps, rest2) => (p :: ps, rest2)

/-- Run prolog_parser = OneOrMore(Group(sentence)) from position 0, returning
the parsed sentences and the unconsumed suffix. -/
def runGrammar (cs : List Char) : Option (List Predicate × List Char) :=
  match parseSentence (cs.length + 1) cs with
  | none => none
  | some (p, rest) =>
    match parseMoreSentences (rest.length + 1) rest with
    | (ps, rest2) => some (p :: ps, rest2)

/-- create_parser returns the grammar (a fresh parser value per call). -/
def createParser : Unit → (List Char → Option (List Predicate × List Char)) :=
  fun _ => runGrammar

/-- The module-level singleton parser instance: prolog = create_parser(). -/
def prolog : List Char → Option (List Predicate × List Char) :=
  createParser ()

/-- Apply a grammar to a whole input with parse_all=True: after the last
sentence only whitespace may remain, otherwise the parse fails. -/
def parseStringAll (g : List Char → Option (List Predicate × List Char))
    (s : String) : Option (List Predicate) :=
  match g s.data with
  | none => none
  | some (ps, rest) => if skipWs rest = [] then some ps else none

/-- parse_file: parse a whole input through the singleton parser with
parse_all=True; `none` models the propagated pyparsing ParseException. -/
def parse_file (s : String) : Option (List Predicate) :=
  parseStringAll prolog s

/-- A parse call through a parser value paired with the parser it leaves
behind for subsequent calls (the source never reassigns the singleton). -/
def parse_call (g : List Char → Option (List Predicate × List Char))
    (s : String) :
    Option (List Predicate) × (List Char → Option (List Predicate × List Char)) :=
  (parseStringAll g s, g)

/-- Python ",".join. -/
def joinComma : List String → String
  | [] => ""
  | [a] => a
  | a :: rest => a ++ "," ++ joinComma rest

/-- to_pred_str: the signature string f-string of the source. -/
def to_pred_str (predicate : Predicate) : String :=
  predicate.id ++ "/" ++ toString predicate.args.length

/-- to_pred: the canonical ground-atom f-string of the source. -/
def to_pred (predicate : Predicate) : String :=
  predicate.id ++ "(" ++ joinComma predicate.args ++ ")"

/-- get_pred_str_list: signature strings of every parsed fact, in order. -/
def get_pred_str_list (results : List Predicate) : List String :=
  results.map to_pred_str

/-- get_all_unique_args: extend a list with every fact's args, then
list(set(...)); the Python set's iteration order is unspecified, so the
deduplicated list is modelled with List.dedup. -/
def get_all_unique_args (results : List Predicate) : List String :=
  ((results.map (fun predicate => predicate.args)).flatten).dedup

/-- Modelled from the spec: a predicate signature, a name paired with an
arity, used as a value-equality key (lernd.lernd_types.Pred is not under
src; spec section 3, "Signature"). -/
structure PredSig where
  name : String
  arity : Nat
deriving DecidableEq, Repr

/-- Modelled from the spec: a rule-slot descriptor slot(v, existential)
(lernd.lernd_types.RuleTemplate is not under src; spec section 3,
"ProgramTemplate"). -/
structure RuleTemplate where
  v : Nat
  existential : Bool
deriving DecidableEq, Repr

/-- Modelled from the spec: decimal value of the arity digits of a signature
string (helper for str2pred, which is not under src). -/
def digitsToNat (cs : List Char) : Nat :=
  cs.foldl (fun acc c => acc * 10 + (c.toNat - '0'.toNat)) 0

/-- Modelled from the spec: str2pred parses a signature string "name/arity"
back into a signature value (lernd.util.str2pred is not under src; spec
section 3 derives signatures from strings of that shape). -/
def str2pred (s : String) : PredSig :=
  PredSig.mk ((s.data.takeWhile (fun c => c != '/')).asString)
    (digitsToNat ((s.data.dropWhile (fun c => c != '/')).drop 1))

/-- Modelled from the spec: a ground atom is kept in its canonical string
form "name(arg1,...)"; str2ground_atom (lernd.util, not under src) maps the
canonical string to the GroundAtom it denotes, here the string itself (spec
section 3, "GroundAtom"). -/
def str2ground_atom (s : String) : String := s

/-- Modelled from the spec: the language model record
LanguageModel(target, preds_ext, constants) (lernd.classes.LanguageModel is
not under src; spec section 3). Constants are opaque strings; the Python
list(set(...)) the assembler passes is a duplicate-free list in unspecified
order. -/
structure LanguageModel where
  target : PredSig
  preds_ext : List PredSig
  constants : List String
deriving DecidableEq, Repr

/-- Modelled from the spec: the program template record
ProgramTemplate(preds_aux, rules, forward_chaining_steps)
(lernd.classes.ProgramTemplate is not under src; spec section 3). The rules
dict is modelled as an insertion-ordered association list with Python dict
overwrite semantics. -/
structure ProgramTemplate where
  preds_aux : List PredSig
  rules : List (PredSig × (RuleTemplate × Option RuleTemplate))
  forward_chaining_steps : Nat
deriving DecidableEq, Repr

/-- Python dict insertion: overwrite the value in place when the key is
already present, otherwise append the binding. -/
def dictInsert (k : PredSig) (v : RuleTemplate × Option RuleTemplate)
    (d : List (PredSig × (RuleTemplate × Option RuleTemplate))) :
    List (PredSig × (RuleTemplate × Option RuleTemplate)) :=
  if d.any (fun kv => decide (kv.1 = k)) then
    d.map (fun kv => if kv.1 = k then (k, v) else kv)
  else d ++ [(k, v)]

/-- Modelled from the spec: the ILP problem record
ILP(name, language_model, background_axioms, positive_examples,
negative_examples) (lernd.classes.ILP is not under src; spec section 3),
with ground atoms in canonical string form. -/
structure ILP where
  name : String
  language_model : LanguageModel
  background_axioms : List String
  positive_examples : List String
  negative_examples : List String
deriving DecidableEq, Repr

/-- Modelled from the spec: the failure outcomes the assembler can surface
(the Python code signals them as exceptions, which are not a Lean value
type). parseError models a pyparsing ParseException propagating out of
parse_file; indexError models the IndexError that positive_exs[0] would
raise on an empty parse result; emptyExamples models the EmptyExamplesError
the spec names in section 7 — no code path of the source produces it. -/
inductive SetupError where
  | parseError : SetupError
  | indexError : SetupError
  | emptyExamples : SetupError
deriving DecidableEq, Repr

/-- setup_custom of src/lernd/experiments.py, taking the contents of the
three fact files (file reading itself is outside the embedding). Each failed
parse propagates as parseError, exactly where the Python exception would
escape. -/
def setup_custom (problem_name bk_text pos_text neg_text : String) :
    Except SetupError (ILP × ProgramTemplate) :=
  match parse_file bk_text with
  | none => Except.error SetupError.parseError
  | some bk =>
    match parse_file pos_text with
    | none => Except.error SetupError.parseError
    | some positive_exs =>
      match parse_file neg_text with
      | none => Except.error SetupError.parseError
      | some negative_exs =>
        match positive_exs with
        | [] => Except.error SetupError.indexError
        | p0 :: _ =>
          let target_pred := str2pred (to_pred_str p0)
          let preds_ext := (get_pred_str_list bk).map str2pred
          let constants := (get_all_unique_args bk ++ get_all_unique_args positive_exs
              ++ get_all_unique_args negative_exs).dedup
          let language_model := LanguageModel.mk target_pred preds_ext constants
          let aux_pred := str2pred "pred/2"
          let rules := dictInsert aux_pred (RuleTemplate.mk 1 false, none)
              (dictInsert target_pred (RuleTemplate.mk 0 false, some (RuleTemplate.mk 1 true)) [])
          let program_template := ProgramTemplate.mk [aux_pred] rules 6
          let background_axioms := bk.map (fun predicate => str2ground_atom (to_pred predicate))
          let positive_examples :=
            positive_exs.map (fun predicate => str2ground_atom (to_pred predicate))
          let negative_examples :=
            negative_exs.map (fun predicate => str2ground_atom (to_pred predicate))
          Except.ok
            (ILP.mk problem_name language_model background_axioms positive_examples
              negative_examples,
             program_template)

/-- The non-whitespace characters of an input, in order. -/
def filterWs (cs : List Char) : List Char :=
  cs.filter (fun c => !isWsChar c)

/-- Serialization of the argument tokens after the first one, each preceded
by the comma that separated it. -/
def serialArgsTail (args : List String) : List Char :=
  args.foldr (fun a acc => ',' :: (a.data ++ acc)) []

/-- Serialization of a sentence list: each fact in canonical form followed by
its terminating period. -/
def serialSentences (ps : List Predicate) : List Char :=
  ps.foldr (fun p acc => (to_pred p).data ++ ('.' :: acc)) []

theorem string_data_append (a b : String) : (a ++ b).data = a.data ++ b.data := rfl

theorem joinComma_data (a : String) (args : List String) :
    (joinComma (a :: args)).data = a.data ++ serialArgsTail args := by
  induction args generalizing a with
  | nil => simp [joinComma, serialArgsTail]
  | cons b r ih =>
    show (a ++ "," ++ joinComma (b :: r)).data = _
    rw [string_data_append, string_data_append, ih b]
    simp [serialArgsTail]

theorem to_pred_data (name a0 : String) (more : List String) :
    (to_pred (Predicate.mk name (a0 :: more))).data
      = name.data ++ ('(' :: (a0.data ++ serialArgsTail more ++ [')'])) := by
  show (name ++ "(" ++ joinComma (a0 :: more) ++ ")").data = _
  rw [string_data_append, string_data_append, string_data_append, joinComma_data]
  simp

theorem not_ws_of_numDot (c : Char) (h : isNumDotChar c = true) : isWsChar c = false := by
  cases hw : isWsChar c with
  | false => rfl
  | true =>
    exfalso
    have hc : (c = ' ' ∨ c = '\t') ∨ c = '\n' := by simpa [isWsChar] using hw
    rcases hc with (rfl | rfl) | rfl <;> exact absurd h (by decide)

theorem not_ws_of_alpha (c : Char) (h : isAlphaChar c = true) : isWsChar c = false := by
  cases hw : isWsChar c with
  | false => rfl
  | true =>
    exfalso
    have hc : (c = ' ' ∨ c = '\t') ∨ c = '\n' := by simpa [isWsChar] using hw
    rcases hc with (rfl | rfl) | rfl <;> exact absurd h (by decide)

theorem filterWs_skipWs (cs : List Char) : filterWs (skipWs cs) = filterWs cs := by
  induction cs with
  | nil => rfl
  | cons c cs ih =>
    by_cases h : isWsChar c = true
    · simpa [skipWs, h, filterWs, List.filter_cons] using ih
    · simp [skipWs, h]

theorem filterWs_eq_nil (cs : List Char) (h : skipWs cs = []) : filterWs cs = [] := by
  rw [← filterWs_skipWs, h]; rfl

theorem parseWord_spec (p : Char → Bool) (hp : ∀ c, p c = true → isWsChar c = false)
    (cs : List Char) (tok : String) (rest : List Char)
    (h : parseWord p cs = some (tok, rest)) :
    filterWs cs = tok.data ++ filterWs rest ∧ tok.data ≠ [] ∧ tok.data.all p = true := by
  unfold parseWord at h
  by_cases he : ((skipWs cs).takeWhile p).isEmpty = true
  · simp [he] at h
  · simp [he] at h
    obtain ⟨htok, hrest⟩ := h
    have hdata : tok.data = (skipWs cs).takeWhile p := by
      rw [← htok]; exact rfl
    have hall : ∀ c ∈ (skipWs cs).takeWhile p, (!isWsChar c) = true := by
      intro c hc
      have := hp c (List.mem_takeWhile_imp hc)
      simp [this]
    constructor
    · rw [← filterWs_skipWs cs, ← List.takeWhile_append_dropWhile (p := p) (l := skipWs cs)]
      rw [hdata, ← hrest]
      unfold filterWs
      rw [List.filter_append, List.filter_eq_self.mpr hall]
    · constructor
      · rw [hdata]
        simpa using he
      · rw [hdata, List.all_eq_true]
        intro c hc
        exact List.mem_takeWhile_imp hc

theorem parseLit_spec (c : Char) (hc : isWsChar c = false) (cs rest : List Char)
    (h : parseLit c cs = some rest) :
    filterWs cs = c :: filterWs rest := by
  unfold parseLit at h
  cases hs : skipWs cs with
  | nil => rw [hs] at h; exact absurd h (by simp)
  | cons c' tl =>
    rw [hs] at h
    by_cases he : c' = c
    · subst he
      have h2 : tl = rest := by simpa using h
      subst h2
      rw [← filterWs_skipWs cs, hs]
      simp [filterWs, List.filter_cons, hc]
    · simp [he] at h

theorem parseArgument_spec (cs : List Char) (a : String) (rest : List Char)
    (h : parseArgument cs = some (a, rest)) :
    filterWs cs = a.data ++ filterWs rest ∧ a.data ≠ [] ∧
      (a.data.all isNumDotChar = true ∨ a.data.all isAlphaChar = true) := by
  unfold parseArgument at h
  cases hn : parseWord isNumDotChar cs with
  | some r =>
    rw [hn] at h
    simp only [Option.some.injEq] at h
    rw [h] at hn
    obtain ⟨h1, h2, h3⟩ := parseWord_spec isNumDotChar not_ws_of_numDot cs a rest hn
    exact ⟨h1, h2, Or.inl h3⟩
  | none =>
    rw [hn] at h
    obtain ⟨h1, h2, h3⟩ := parseWord_spec isAlphaChar not_ws_of_alpha cs a rest h
    exact ⟨h1, h2, Or.inr h3⟩

theorem parseMoreArgs_spec (fuel : Nat) (cs : List Char) (args : List String)
    (rest : List Char) (h : parseMoreArgs fuel cs = (args, rest)) :
    filterWs cs = serialArgsTail args ++ filterWs rest ∧
      ∀ a ∈ args, a.data ≠ [] ∧
        (a.data.all isNumDotChar = true ∨ a.data.all isAlphaChar = true) := by
  induction fuel generalizing cs args rest with
  | zero =>
    simp only [parseMoreArgs, Prod.mk.injEq] at h
    obtain ⟨rfl, rfl⟩ := h
    simp [serialArgsTail]
  | succ fuel ih =>
    rw [parseMoreArgs] at h
    split at h
    · simp only [Prod.mk.injEq] at h
      obtain ⟨rfl, rfl⟩ := h
      simp [serialArgsTail]
    · rename_i cs1 hl
      split at h
      · simp only [Prod.mk.injEq] at h
        obtain ⟨rfl, rfl⟩ := h
        simp [serialArgsTail]
      · rename_i a cs2 ha
        split at h
        rename_i args2 rest2 hm
        simp only [Prod.mk.injEq] at h
        obtain ⟨rfl, rfl⟩ := h
        have hlit := parseLit_spec ',' (by decide) cs cs1 hl
        have harg := parseArgument_spec cs1 a cs2 ha
        have hrec := ih cs2 args2 rest2 hm
        constructor
        · rw [hlit, harg.1, hrec.1]
          simp [serialArgsTail]
        · intro x hx
          rcases List.mem_cons.mp hx with rfl | hx2
          · exact ⟨harg.2.1, harg.2.2⟩
          · exact hrec.2 x hx2

theorem parseSentence_spec (fuel : Nat) (cs : List Char) (p : Predicate)
    (rest : List Char) (h : parseSentence fuel cs = some (p, rest)) :
    filterWs cs = (to_pred p).data ++ ('.' :: filterWs rest) ∧
      p.args ≠ [] ∧
      ∀ a ∈ p.args, a.data ≠ [] ∧
        (a.data.all isNumDotChar = true ∨ a.data.all isAlphaChar = true) := by
  unfold parseSentence at h
  split at h
  · exact absurd h (by simp)
  · rename_i name cs1 hw
    split at h
    · exact absurd h (by simp)
    · rename_i cs2 hop
      split at h
      · exact absurd h (by simp)
      · rename_i a0 cs3 ha0
        split at h
        rename_i more cs4 hmore
        split at h
        · exact absurd h (by simp)
        · rename_i cs5 hcl
          split at h
          · exact absurd h (by simp)
          · rename_i cs6 hdot
            simp only [Option.some.injEq, Prod.mk.injEq] at h
            obtain ⟨rfl, rfl⟩ := h
            have s1 := parseWord_spec isAlphaChar not_ws_of_alpha cs name cs1 hw
            have s2 := parseLit_spec '(' (by decide) cs1 cs2 hop
            have s3 := parseArgument_spec cs2 a0 cs3 ha0
            have s4 := parseMoreArgs_spec fuel cs3 more cs4 hmore
            have s5 := parseLit_spec ')' (by decide) cs4 cs5 hcl
            have s6 := parseLit_spec '.' (by decide) cs5 cs6 hdot
            refine ⟨?_, by simp, ?_⟩
            · rw [s1.1, s2, s3.1, s4.1, s5, s6, to_pred_data]
              simp
            · intro a ha
              rcases List.mem_cons.mp ha with rfl | ha2
              · exact ⟨s3.2.1, s3.2.2⟩
              · exact s4.2 a ha2

theorem parseMoreSentences_spec (fuel : Nat) (cs : List Char) (ps : List Predicate)
    (rest : List Char) (h : parseMoreSentences fuel cs = (ps, rest)) :
    filterWs cs = serialSentences ps ++ filterWs rest ∧
      ∀ p ∈ ps, p.args ≠ [] ∧
        ∀ a ∈ p.args, a.data ≠ [] ∧
          (a.data.all isNumDotChar = true ∨ a.data.all isAlphaChar = true) := by
  induction fuel generalizing cs ps rest with
  | zero =>
    simp only [parseMoreSentences, Prod.mk.injEq] at h
    obtain ⟨rfl, rfl⟩ := h
    simp [serialSentences]
  | succ fuel ih =>
    rw [parseMoreSentences] at h
    split at h
    · simp only [Prod.mk.injEq] at h
      obtain ⟨rfl, rfl⟩ := h
      simp [serialSentences]
    · rename_i p mid hs
      split at h
      rename_i ps2 rest2 hm
      simp only [Prod.mk.injEq] at h
      obtain ⟨rfl, rfl⟩ := h
      have hone := parseSentence_spec (cs.length + 1) cs p mid hs
      have hrec := ih mid ps2 rest2 hm
      constructor
      · rw [hone.1, hrec.1]
        simp [serialSentences]
      · intro q hq
        rcases List.mem_cons.mp hq with rfl | hq2
        · exact ⟨hone.2.1, hone.2.2⟩
        · exact hrec.2 q hq2

theorem runGrammar_spec (cs : List Char) (ps : List Predicate) (rest : List Char)
    (h : runGrammar cs = some (ps, rest)) :
    filterWs cs = serialSentences ps ++ filterWs rest ∧ ps ≠ [] ∧
      ∀ p ∈ ps, p.args ≠ [] ∧
        ∀ a ∈ p.args, a.data ≠ [] ∧
          (a.data.all isNumDotChar = true ∨ a.data.all isAlphaChar = true) := by
  unfold runGrammar at h
  split at h
  · exact absurd h (by simp)
  · rename_i p mid hs
    split at h
    rename_i ps2 rest2 hm
    simp only [Option.some.injEq, Prod.mk.injEq] at h
    obtain ⟨rfl, rfl⟩ := h
    have hone := parseSentence_spec (cs.length + 1) cs p mid hs
    have hrec := parseMoreSentences_spec (mid.length + 1) mid ps2 rest2 hm
    refine ⟨?_, by simp, ?_⟩
    · rw [hone.1, hrec.1]
      simp [serialSentences]
    · intro q hq
      rcases List.mem_cons.mp hq with rfl | hq2
      · exact ⟨hone.2.1, hone.2.2⟩
      · exact hrec.2 q hq2

theorem parse_file_spec (s : String) (l : List Predicate) (h : parse_file s = some l) :
    filterWs s.data = serialSentences l ∧ l ≠ [] ∧
      ∀ p ∈ l, p.args ≠ [] ∧
        ∀ a ∈ p.args, a.data ≠ [] ∧
          (a.data.all isNumDotChar = true ∨ a.data.all isAlphaChar = true) := by
  unfold parse_file parseStringAll prolog createParser at h
  split at h
  · exact absurd h (by simp)
  · rename_i ps rest hr
    by_cases hn : skipWs rest = []
    · rw [if_pos hn] at h
      have h2 : ps = l := by simpa using h
      subst h2
      have hrun := runGrammar_spec s.data ps rest hr
      refine ⟨?_, hrun.2.1, hrun.2.2⟩
      rw [hrun.1, filterWs_eq_nil rest hn]
      simp
    · rw [if_neg hn] at h
      exact absurd h (by simp)

/-- Numeric-literal token shape as the specification states it: only digits
and points, at least one digit, at most one decimal point. -/
def specNumericLit (s : String) : Bool :=
  s.data.all isNumDotChar && s.data.any (fun c => c.isDigit)
    && decide ((s.data.filter (fun c => c == '.')).length ≤ 1)

/-- Alphabetic token shape as the specification states it. -/
def specAlphaTok (s : String) : Bool :=
  !s.data.isEmpty && s.data.all isAlphaChar

/-- C3 counterexample: the parser accepts "foo(..)." and returns the
argument token "..", which contains no digit and two points, hence is
neither a spec numeric literal nor alphabetic. -/
theorem C3_counterexample :
    parse_file "foo(..)." = some [Predicate.mk "foo" [".."]] ∧
    specNumericLit ".." = false ∧ specAlphaTok ".." = false :=
  ⟨rfl, rfl, rfl⟩

/-- C3 (amended): every Predicate accepted by the parser has at least one
argument, and every argument token is nonempty and consists either wholly of
digits and points (with no bound on how many digits or points) or wholly of
ASCII letters. -/
theorem C3_prop (s : String) (l : List Predicate) (h : parse_file s = some l) :
    ∀ p ∈ l, p.args ≠ [] ∧
      ∀ a ∈ p.args, a.data ≠ [] ∧
        (a.data.all isNumDotChar = true ∨ a.data.all isAlphaChar = true) :=
  (parse_file_spec s l h).2.2

/-- C3 witness: the amended statement evaluated on the accepted input
"succ(0,ab).". -/
theorem C3_witness :
    (Predicate.mk "succ" ["0", "ab"]).args ≠ [] ∧
    ∀ a ∈ (Predicate.mk "succ" ["0", "ab"]).args, a.data ≠ [] ∧
      (a.data.all isNumDotChar = true ∨ a.data.all isAlphaChar = true) :=
  C3_prop "succ(0,ab)." [Predicate.mk "succ" ["0", "ab"]] rfl
    (Predicate.mk "succ" ["0", "ab"]) (List.mem_singleton.mpr rfl)

/-- C5: parsing is all-or-nothing — when parse_file succeeds the parse is
anchored at position 0 and the returned nonempty sentence list serializes
back to every non-whitespace character of the whole input, and when the
grammar stops with a non-whitespace suffix unconsumed parse_file fails,
returning no partial list. -/
theorem C5_prop (s : String) :
    (∀ l, parse_file s = some l → l ≠ [] ∧ filterWs s.data = serialSentences l) ∧
    ∀ l rest, runGrammar s.data = some (l, rest) → skipWs rest ≠ [] →
      parse_file s = none := by
  constructor
  · intro l h
    exact ⟨(parse_file_spec s l h).2.1, (parse_file_spec s l h).1⟩
  · intro l rest hrun hne
    unfold parse_file parseStringAll prolog createParser
    rw [hrun]
    simp [hne]

/-- C5 witness: "zero(0). (" has a parsable prefix but a non-whitespace
suffix, so parse_file rejects it outright. -/
theorem C5_witness : parse_file "zero(0). (" = none :=
  (C5_prop "zero(0). (").2 [Predicate.mk "zero" ["0"]] [' ', '('] rfl (by decide)

/-- C6: round-trip law — for a single-fact input the canonical ground-atom
string to_pred of the parsed Predicate is the input with whitespace removed
and without the trailing period: same name, same argument tokens in the same
order, joined by commas with no added whitespace and no numeric
normalization. -/
theorem C6_prop (s : String) (p : Predicate) (h : parse_file s = some [p]) :
    s.data.filter (fun c => !isWsChar c) = (to_pred p).data ++ ['.'] ∧
    to_pred p = p.id ++ "(" ++ joinComma p.args ++ ")" := by
  refine ⟨?_, rfl⟩
  have h1 := (parse_file_spec s [p] h).1
  simpa [serialSentences, filterWs] using h1

/-- C6 witness: the round-trip law evaluated on "even( 0 ).". -/
theorem C6_witness :
    "even( 0 ).".data.filter (fun c => !isWsChar c)
        = (to_pred (Predicate.mk "even" ["0"])).data ++ ['.'] ∧
    to_pred (Predicate.mk "even" ["0"]) = "even" ++ "(" ++ joinComma ["0"] ++ ")" :=
  C6_prop "even( 0 )." (Predicate.mk "even" ["0"]) rfl

/-- C7: to_pred_str returns exactly the predicate name, a slash, and the
decimal arity; it is a pure, deterministic function of the Predicate. -/
theorem C7_prop (p : Predicate) :
    to_pred_str p = p.id ++ "/" ++ toString p.args.length :=
  rfl

/-- C8: get_all_unique_args returns a duplicate-free list whose members are
exactly the argument tokens of the input, and as a set it is invariant under
permutation of the input sequence. -/
theorem C8_prop (rs rs2 : List Predicate) (h : rs.Perm rs2) :
    (get_all_unique_args rs).Nodup ∧
    (∀ a, a ∈ get_all_unique_args rs ↔ ∃ p, p ∈ rs ∧ a ∈ p.args) ∧
    (get_all_unique_args rs).toFinset = (get_all_unique_args rs2).toFinset := by
  have hmem : ∀ (l : List Predicate) (a : String),
      a ∈ get_all_unique_args l ↔ ∃ p, p ∈ l ∧ a ∈ p.args := by
    intro l a
    unfold get_all_unique_args
    rw [List.mem_dedup, List.mem_flatten]
    constructor
    · rintro ⟨x, hx, hax⟩
      obtain ⟨p, hp, rfl⟩ := List.mem_map.mp hx
      exact ⟨p, hp, hax⟩
    · rintro ⟨p, hp, hap⟩
      exact ⟨p.args, List.mem_map.mpr ⟨p, hp, rfl⟩, hap⟩
  refine ⟨List.nodup_dedup _, hmem rs, ?_⟩
  ext a
  simp only [List.mem_toFinset]
  rw [hmem rs, hmem rs2]
  constructor
  · rintro ⟨p, hp, hap⟩
    exact ⟨p, h.mem_iff.mp hp, hap⟩
  · rintro ⟨p, hp, hap⟩
    exact ⟨p, h.mem_iff.mpr hp, hap⟩

/-- C8 witness: permuting a two-fact input leaves the constant set equal. -/
theorem C8_witness :
    (get_all_unique_args [Predicate.mk "zero" ["0"], Predicate.mk "succ" ["0", "1"]]).toFinset
      = (get_all_unique_args
          [Predicate.mk "succ" ["0", "1"], Predicate.mk "zero" ["0"]]).toFinset :=
  (C8_prop [Predicate.mk "zero" ["0"], Predicate.mk "succ" ["0", "1"]]
    [Predicate.mk "succ" ["0", "1"], Predicate.mk "zero" ["0"]]
    (List.Perm.swap (Predicate.mk "succ" ["0", "1"]) (Predicate.mk "zero" ["0"]) [])).2.2

/-- C10: parsing through the module-level singleton parser yields the same
result as parsing with a freshly constructed parser, and a parse call leaves
the parser value unchanged, so a preceding call on any other input cannot
change a later call's outcome. -/
theorem C10_prop (s t : String) :
    parse_file s = parseStringAll (createParser ()) s ∧
    (parse_call (parse_call prolog t).2 s).1 = parse_file s :=
  ⟨rfl, rfl⟩

/-- C1 counterexample: on the stated inputs the assembled constant pool is
the three-element set with "0", "1" and "2" — the token "2" of even(2) is
included — so the claimed pool holding only "0" and "1" is wrong. -/
theorem C1_counterexample :
    (setup_custom "even" "zero(0).\nsucc(0,1)." "even(0).\neven(2)." "even(1).").toOption.map
        (fun r => r.1.language_model.constants)
      = some ["0", "2", "1"] ∧
    (["0", "2", "1"] : List String).contains "2" = true ∧
    (["0", "1"] : List String).contains "2" = false :=
  ⟨rfl, rfl, rfl⟩

/-- C1 (amended): on the stated inputs the assembler produces target even/1,
extensional signatures [zero/1, succ/2], the constant pool as a set equal to
the tokens "0", "1" and "2", positive ground atoms even(0) and even(2),
negative ground atom even(1), and background ground atoms zero(0) and
succ(0,1). -/
theorem C1_prop :
    setup_custom "even" "zero(0).\nsucc(0,1)." "even(0).\neven(2)." "even(1)." =
      Except.ok
        (ILP.mk "even"
          (LanguageModel.mk (PredSig.mk "even" 1)
            [PredSig.mk "zero" 1, PredSig.mk "succ" 2] ["0", "2", "1"])
          ["zero(0)", "succ(0,1)"] ["even(0)", "even(2)"] ["even(1)"],
         ProgramTemplate.mk [PredSig.mk "pred" 2]
           [(PredSig.mk "even" 1, (RuleTemplate.mk 0 false, some (RuleTemplate.mk 1 true))),
            (PredSig.mk "pred" 2, (RuleTemplate.mk 1 false, none))] 6) ∧
    (["0", "2", "1"] : List String).toFinset = ({"0", "1", "2"} : Finset String) := by
  constructor
  · rfl
  · ext a
    simp only [List.mem_toFinset, List.mem_cons, List.not_mem_nil, or_false,
      Finset.mem_insert, Finset.mem_singleton]
    tauto

/-- C2 counterexample: a background file with two zero/1 facts yields the
extensional sequence [zero/1, zero/1] — the same signature appears twice, so
no deduplication happens. -/
theorem C2_counterexample :
    (setup_custom "even" "zero(0).\nzero(1)." "even(0)." "even(1).").toOption.map
        (fun r => r.1.language_model.preds_ext)
      = some [PredSig.mk "zero" 1, PredSig.mk "zero" 1] ∧
    (setup_custom "even" "zero(0).\nzero(1)." "even(0)." "even(1).").toOption.map
        (fun r => r.1.language_model.preds_ext.count (PredSig.mk "zero" 1))
      = some 2 :=
  ⟨rfl, rfl⟩

/-- C2 (amended): the extensional signature sequence is the str2pred of the
to_pred_str signature of every background Predicate in file order with
duplicates retained — one entry per background fact, no deduplication. -/
theorem C2_prop (name bk pos neg : String) (bkl : List Predicate) (ilp : ILP)
    (pt : ProgramTemplate) (hbk : parse_file bk = some bkl)
    (h : setup_custom name bk pos neg = Except.ok (ilp, pt)) :
    ilp.language_model.preds_ext = bkl.map (fun p => str2pred (to_pred_str p)) ∧
    ilp.language_model.preds_ext.length = bkl.length := by
  unfold setup_custom at h
  split at h
  · exact absurd h (by simp)
  · rename_i bk2 hbk2
    split at h
    · exact absurd h (by simp)
    · rename_i pos2 hpos2
      split at h
      · exact absurd h (by simp)
      · rename_i neg2 hneg2
        split at h
        · exact absurd h (by simp)
        · rename_i p0 ptail
          simp only [Except.ok.injEq, Prod.mk.injEq] at h
          obtain ⟨h1, h2⟩ := h
          have hbkeq : bk2 = bkl := by
            rw [hbk] at hbk2
            exact (Option.some.injEq _ _ ▸ hbk2).symm
          subst hbkeq
          rw [← h1]
          simp [get_pred_str_list, List.map_map, Function.comp]

/-- C2 witness: the amended statement evaluated on a duplicated background
file. -/
theorem C2_witness :
    (ILP.mk "even"
        (LanguageModel.mk (PredSig.mk "even" 1)
          [PredSig.mk "zero" 1, PredSig.mk "zero" 1] ["0", "1"])
        ["zero(0)", "zero(1)"] ["even(0)"] ["even(1)"]).language_model.preds_ext =
      [Predicate.mk "zero" ["0"], Predicate.mk "zero" ["1"]].map
        (fun p => str2pred (to_pred_str p)) ∧
    (ILP.mk "even"
        (LanguageModel.mk (PredSig.mk "even" 1)
          [PredSig.mk "zero" 1, PredSig.mk "zero" 1] ["0", "1"])
        ["zero(0)", "zero(1)"] ["even(0)"] ["even(1)"]).language_model.preds_ext.length =
      [Predicate.mk "zero" ["0"], Predicate.mk "zero" ["1"]].length :=
  C2_prop "even" "zero(0).\nzero(1)." "even(0)." "even(1)."
    [Predicate.mk "zero" ["0"], Predicate.mk "zero" ["1"]]
    (ILP.mk "even"
      (LanguageModel.mk (PredSig.mk "even" 1)
        [PredSig.mk "zero" 1, PredSig.mk "zero" 1] ["0", "1"])
      ["zero(0)", "zero(1)"] ["even(0)"] ["even(1)"])
    (ProgramTemplate.mk [PredSig.mk "pred" 2]
      [(PredSig.mk "even" 1, (RuleTemplate.mk 0 false, some (RuleTemplate.mk 1 true))),
       (PredSig.mk "pred" 2, (RuleTemplate.mk 1 false, none))] 6)
    rfl rfl

/-- C4 counterexample: with an empty positive-example file the assembly
fails with the propagated parse error (the grammar requires at least one
fact), which is not the EmptyExamplesError the claim names. -/
theorem C4_counterexample :
    setup_custom "even" "zero(0).\nsucc(0,1)." "" "even(1)."
      = Except.error SetupError.parseError ∧
    decide (SetupError.parseError = SetupError.emptyExamples) = false :=
  ⟨rfl, rfl⟩

/-- C4 (amended): the assembler never raises the spec's EmptyExamplesError
(no such error exists in the code) nor the IndexError branch (a successful
parse always has at least one fact); an empty positive file instead fails at
the parsing stage, and every successful assembly has its target defined as
the signature of the first positive fact. -/
theorem C4_prop (name bk pos neg : String) :
    setup_custom name bk pos neg ≠ Except.error SetupError.emptyExamples ∧
    setup_custom name bk pos neg ≠ Except.error SetupError.indexError ∧
    ∀ ilp pt, setup_custom name bk pos neg = Except.ok (ilp, pt) →
      ((parse_file pos).bind List.head?).map (fun p => str2pred (to_pred_str p)) =
        some ilp.language_model.target := by
  unfold setup_custom
  split
  · exact ⟨by simp, by simp, fun ilp pt h => absurd h (by simp)⟩
  · rename_i bk2 hbk2
    split
    · exact ⟨by simp, by simp, fun ilp pt h => absurd h (by simp)⟩
    · rename_i pos2 hpos2
      split
      · exact ⟨by simp, by simp, fun ilp pt h => absurd h (by simp)⟩
      · rename_i neg2 hneg2
        split
        · exact absurd rfl ((parse_file_spec pos [] hpos2).2.1)
        · rename_i p0 ptail
          refine ⟨by simp, by simp, ?_⟩
          intro ilp pt h
          simp only [Except.ok.injEq, Prod.mk.injEq] at h
          obtain ⟨h1, h2⟩ := h
          rw [hpos2, ← h1]
          simp

/-- C4 witness: the target of the successful even assembly is the signature
of the first positive fact. -/
theorem C4_witness :
    ((parse_file "even(0).\neven(2).").bind List.head?).map
        (fun p => str2pred (to_pred_str p)) =
      some (ILP.mk "even"
        (LanguageModel.mk (PredSig.mk "even" 1)
          [PredSig.mk "zero" 1, PredSig.mk "succ" 2] ["0", "2", "1"])
        ["zero(0)", "succ(0,1)"] ["even(0)", "even(2)"]
        ["even(1)"]).language_model.target :=
  (C4_prop "even" "zero(0).\nsucc(0,1)." "even(0).\neven(2)." "even(1).").2.2
    (ILP.mk "even"
      (LanguageModel.mk (PredSig.mk "even" 1)
        [PredSig.mk "zero" 1, PredSig.mk "succ" 2] ["0", "2", "1"])
      ["zero(0)", "succ(0,1)"] ["even(0)", "even(2)"] ["even(1)"])
    (ProgramTemplate.mk [PredSig.mk "pred" 2]
      [(PredSig.mk "even" 1, (RuleTemplate.mk 0 false, some (RuleTemplate.mk 1 true))),
       (PredSig.mk "pred" 2, (RuleTemplate.mk 1 false, none))] 6)
    rfl

/-- C9 counterexample: when the first positive fact is pred(a,b) the target
signature equals the auxiliary pred/2, the Python dict literal collapses,
and the returned rules hold a single entry mapping pred/2 to
(slot(1, existential=false), absent) — not the slot pair the claim states
for the target. -/
theorem C9_counterexample :
    (setup_custom "p" "zero(0)." "pred(a,b)." "zero(1).").toOption.map (fun r => r.2.rules)
      = some [(PredSig.mk "pred" 2, (RuleTemplate.mk 1 false, none))] ∧
    (setup_custom "p" "zero(0)." "pred(a,b)." "zero(1).").toOption.map
        (fun r => r.1.language_model.target) = some (PredSig.mk "pred" 2) ∧
    decide ((RuleTemplate.mk 1 false, (none : Option RuleTemplate))
      = (RuleTemplate.mk 0 false, some (RuleTemplate.mk 1 true))) = false :=
  ⟨rfl, rfl, rfl⟩

/-- C9 (amended): every successful assembly returns a template with exactly
one auxiliary predicate pred/2 and forward_chaining_steps 6; when the target
signature differs from pred/2 the rules map the target to
(slot(0, existential=false), slot(1, existential=true)) and pred/2 to
(slot(1, existential=false), absent), but when the target itself is pred/2
the dict literal collapses to the single entry pred/2 ↦
(slot(1, existential=false), absent). -/
theorem C9_prop (name bk pos neg : String) (ilp : ILP) (pt : ProgramTemplate)
    (h : setup_custom name bk pos neg = Except.ok (ilp, pt)) :
    pt.preds_aux = [PredSig.mk "pred" 2] ∧
    pt.forward_chaining_steps = 6 ∧
    (ilp.language_model.target ≠ PredSig.mk "pred" 2 →
      pt.rules = [(ilp.language_model.target,
          (RuleTemplate.mk 0 false, some (RuleTemplate.mk 1 true))),
        (PredSig.mk "pred" 2, (RuleTemplate.mk 1 false, none))]) ∧
    (ilp.language_model.target = PredSig.mk "pred" 2 →
      pt.rules = [(PredSig.mk "pred" 2, (RuleTemplate.mk 1 false, none))]) := by
  unfold setup_custom at h
  split at h
  · exact absurd h (by simp)
  · rename_i bk2 hbk2
    split at h
    · exact absurd h (by simp)
    · rename_i pos2 hpos2
      split at h
      · exact absurd h (by simp)
      · rename_i neg2 hneg2
        split at h
        · exact absurd h (by simp)
        · rename_i p0 ptail
          simp only [Except.ok.injEq, Prod.mk.injEq] at h
          obtain ⟨h1, h2⟩ := h
          have haux : str2pred "pred/2" = PredSig.mk "pred" 2 := rfl
          subst h2
          refine ⟨rfl, rfl, ?_, ?_⟩
          · intro hne
            have hne2 : str2pred (to_pred_str p0) ≠ PredSig.mk "pred" 2 := by
              rw [← h1] at hne
              exact hne
            rw [← h1]
            show dictInsert (str2pred "pred/2") (RuleTemplate.mk 1 false, none)
                [(str2pred (to_pred_str p0),
                  (RuleTemplate.mk 0 false, some (RuleTemplate.mk 1 true)))] =
              [(str2pred (to_pred_str p0),
                 (RuleTemplate.mk 0 false, some (RuleTemplate.mk 1 true))),
               (PredSig.mk "pred" 2, (RuleTemplate.mk 1 false, none))]
            simp [dictInsert, haux, hne2]
          · intro heq
            have heq2 : str2pred (to_pred_str p0) = PredSig.mk "pred" 2 := by
              rw [← h1] at heq
              exact heq
            show dictInsert (str2pred "pred/2") (RuleTemplate.mk 1 false, none)
                [(str2pred (to_pred_str p0),
                  (RuleTemplate.mk 0 false, some (RuleTemplate.mk 1 true)))] =
              [(PredSig.mk "pred" 2, (RuleTemplate.mk 1 false, none))]
            rw [heq2]
            simp [dictInsert, haux]

/-- C9 witness: the amended statement evaluated on the even problem, whose
target even/1 differs from pred/2. -/
theorem C9_witness :
    (ProgramTemplate.mk [PredSig.mk "pred" 2]
      [(PredSig.mk "even" 1, (RuleTemplate.mk 0 false, some (RuleTemplate.mk 1 true))),
       (PredSig.mk "pred" 2, (RuleTemplate.mk 1 false, none))] 6).rules =
      [((ILP.mk "even"
          (LanguageModel.mk (PredSig.mk "even" 1)
            [PredSig.mk "zero" 1, PredSig.mk "succ" 2] ["0", "2", "1"])
          ["zero(0)", "succ(0,1)"] ["even(0)", "even(2)"]
          ["even(1)"]).language_model.target,
        (RuleTemplate.mk 0 false, some (RuleTemplate.mk 1 true))),
       (PredSig.mk "pred" 2, (RuleTemplate.mk 1 false, none))] :=
  (C9_prop "even" "zero(0).\nsucc(0,1)." "even(0).\neven(2)." "even(1)."
    (ILP.mk "even"
      (LanguageModel.mk (PredSig.mk "even" 1)
        [PredSig.mk "zero" 1, PredSig.mk "succ" 2] ["0", "2", "1"])
      ["zero(0)", "succ(0,1)"] ["even(0)", "even(2)"] ["even(1)"])
    (ProgramTemplate.mk [PredSig.mk "pred" 2]
      [(PredSig.mk "even" 1, (RuleTemplate.mk 0 false, some (RuleTemplate.mk 1 true))),
       (PredSig.mk "pred" 2, (RuleTemplate.mk 1 false, none))] 6)
    rfl).2.2.1 (by decide)
